import Mathlib

/-!
Verification development for the booking-form extraction core of app.py.

The Python program is shallowly embedded: pandas cell values become `PyVal`,
the spreadsheet becomes `Grid`, Python dicts become ordered association lists
(`Record`), and each Python function of the core becomes a Lean definition of
the same name.  Python's silent exception handling in `format_date` becomes
explicit `Option` plumbing that collapses to `""` exactly where the `except`
clause does.
-/

set_option maxRecDepth 4000

/-- A pandas cell value as seen by the extractor: missing (NaN), text, an int,
a float (modelled by the integer part and the decimal-digit text of its Python
rendering), or a (midnight) datetime given as day/month/year. -/
inductive PyVal where
  | vNone : PyVal
  | vStr : String → PyVal
  | vInt : Int → PyVal
  | vFloat : Int → String → PyVal
  | vDate : Nat → Nat → Nat → PyVal
deriving DecidableEq, Repr

open PyVal

/-- Decimal digits worker; the fuel argument only bounds recursion depth
(`fuel = n + 1` always suffices) and keeps the recursion structural so the
kernel can evaluate it. -/
def natToCharsAux : Nat → Nat → List Char
  | 0, _ => []
  | fuel + 1, n =>
      if n < 10 then [Nat.digitChar n]
      else natToCharsAux fuel (n / 10) ++ [Nat.digitChar (n % 10)]

/-- Decimal digits of a natural number, most significant first. -/
def natToChars (n : Nat) : List Char := natToCharsAux (n + 1) n

/-- Python `str` of an int. -/
def intToStr (i : Int) : String :=
  if i < 0 then String.mk ('-' :: natToChars i.natAbs) else String.mk (natToChars i.toNat)

/-- Zero-pad to two digits (for `str(datetime)`). -/
def pad2 (n : Nat) : String :=
  if n < 10 then "0" ++ String.mk (natToChars n) else String.mk (natToChars n)

/-- Zero-pad to four digits (for `str(datetime)`). -/
def pad4 (n : Nat) : String :=
  if n < 10 then "000" ++ String.mk (natToChars n)
  else if n < 100 then "00" ++ String.mk (natToChars n)
  else if n < 1000 then "0" ++ String.mk (natToChars n)
  else String.mk (natToChars n)

/-- Python `str()` of a cell value.  `str(nan) = "nan"`, ints and floats render
as decimal text, and a (midnight) datetime renders as `"YYYY-MM-DD 00:00:00"`. -/
def pyStr : PyVal → String
  | vNone => "nan"
  | vStr s => s
  | vInt n => intToStr n
  | vFloat ip frac => intToStr ip ++ "." ++ frac
  | vDate d m y => pad4 y ++ "-" ++ pad2 m ++ "-" ++ pad2 d ++ " 00:00:00"

/-- Python pd.notna: everything but NaN. -/
def notna : PyVal → Bool
  | vNone => false
  | _ => true

/-- Does `pat` occur at the head of `l`? -/
def startsWithL : List Char → List Char → Bool
  | [], _ => true
  | _ :: _, [] => false
  | a :: as, b :: bs => a == b && startsWithL as bs

/-- Python's `pat in s` substring test, on character lists. -/
def containsL (pat : List Char) : List Char → Bool
  | [] => startsWithL pat []
  | c :: rest => startsWithL pat (c :: rest) || containsL pat rest

/-- Python's `pat in s` substring test on strings. -/
def pyContains (pat s : String) : Bool := containsL pat.toList s.toList

/-- Python `str.strip()` on a character list. -/
def stripL (l : List Char) : List Char :=
  ((l.dropWhile Char.isWhitespace).reverse.dropWhile Char.isWhitespace).reverse

/-- Python `str.strip()`. -/
def pyStrip (s : String) : String := String.mk (stripL s.toList)

/-- Python `str.lower()` (ASCII; the program only compares ASCII labels). -/
def pyLower (s : String) : String := String.mk (s.toList.map Char.toLower)

/-- Python `str.upper()` (ASCII). -/
def pyUpper (s : String) : String := String.mk (s.toList.map Char.toUpper)

/-- Worker for whitespace splitting; `cur` is the current token reversed. -/
def splitWsGo (cur : List Char) : List Char → List (List Char)
  | [] => if cur.isEmpty then [] else [cur.reverse]
  | c :: rest =>
      if c.isWhitespace then
        if cur.isEmpty then splitWsGo [] rest else cur.reverse :: splitWsGo [] rest
      else splitWsGo (c :: cur) rest

/-- Python `str.split()` with no argument: runs of non-whitespace. -/
def splitWs (l : List Char) : List (List Char) := splitWsGo [] l

/-- Python `str.split(sep)` for a single-character separator (keeps empties). -/
def splitOnChar (sep : Char) : List Char → List (List Char)
  | [] => [[]]
  | c :: rest =>
      if c == sep then [] :: splitOnChar sep rest
      else
        match splitOnChar sep rest with
        | g :: gs => (c :: g) :: gs
        | [] => [[c]]

/-- Value of a digit string, most significant first. -/
def digitsVal (l : List Char) : Nat :=
  l.foldl (fun a c => a * 10 + (c.toNat - 48)) 0

/-- Python `int(s)` on text: strip, optional sign, nonempty digit run; `none`
models the `ValueError` that the caller's bare `except` absorbs. -/
def pyIntOfStr (s : String) : Option Int :=
  match stripL s.toList with
  | '+' :: ds => if !ds.isEmpty && ds.all Char.isDigit then some (digitsVal ds) else none
  | '-' :: ds => if !ds.isEmpty && ds.all Char.isDigit then some (-(digitsVal ds : Int)) else none
  | ds => if !ds.isEmpty && ds.all Char.isDigit then some (digitsVal ds) else none

/-- Python list indexing (negative indices count from the end; `none` models
the `IndexError` the caller's bare `except` absorbs). -/
def pyIndex {α : Type} (l : List α) (i : Int) : Option α :=
  if 0 ≤ i then l.get? i.toNat
  else if 0 ≤ (l.length : Int) + i then l.get? ((l.length : Int) + i).toNat else none

/-- The `month_names` list of `format_date`. -/
def monthNames : List String :=
  ["Jan", "Feb", "Mar", "Apr", "May", "Jun", "Jul", "Aug", "Sep", "Oct", "Nov", "Dec"]

/-- The apostrophe character, written by code point to keep sources quote-free. -/
def apos : Char := Char.ofNat 39

/-- The one-character apostrophe string. -/
def aposS : String := String.mk [apos]

/-- The format_date function from app.py: convert a date-like value to `"D-Mon"` text.
Strings containing an apostrophe take the `"19 Jul '25"` branch; strings
containing `"00:00:00"` take the `"2025-07-19 00:00:00"` branch; datetimes
render from their components; every failure path returns `""` (the bare
`except` clause). -/
def format_date : PyVal → String
  | vStr s =>
      if pyContains aposS s then
        match splitWs s.toList with
        | p0 :: p1 :: _ => String.mk p0 ++ "-" ++ String.mk p1
        | _ => ""
      else if pyContains "00:00:00" s then
        match splitWs s.toList with
        | dpart :: _ =>
            if containsL ['-'] dpart then
              match splitOnChar '-' dpart with
              | [_, m, d] =>
                  match pyIntOfStr (String.mk m), pyIntOfStr (String.mk d) with
                  | some mi, some di =>
                      match pyIndex monthNames (mi - 1) with
                      | some nm => intToStr di ++ "-" ++ nm
                      | none => ""
                  | _, _ => ""
              | _ => ""
            else ""
        | [] => ""
      else ""
  | vDate d m _ =>
      match pyIndex monthNames ((m : Int) - 1) with
      | some nm => intToStr (d : Int) ++ "-" ++ nm
      | none => ""
  | _ => ""

/-- The in-memory spreadsheet: a rectangular grid of cell values with the shape
of the pandas DataFrame (`df.shape`).  Out-of-range positions are never read by
the embedded code, which always guards with the shape. -/
structure Grid where
  nrows : Nat
  ncols : Nat
  cell : Nat → Nat → PyVal

/-- Build a grid from a list of rows; absent entries are NaN. -/
def mkGrid (rows : List (List PyVal)) (nc : Nat) : Grid :=
  { nrows := rows.length
    ncols := nc
    cell := fun r c => ((rows.get? r).bind (fun row => row.get? c)).getD vNone }

/-- A Python dict with string keys, as the ordered association list of its
items; keys are unique by construction of `dictSet`. -/
abbrev Record := List (String × PyVal)

/-- Python `d[k] = v`: update in place if the key exists, else append. -/
def dictSet : Record → String → PyVal → Record
  | [], k, v => [(k, v)]
  | (k0, v0) :: t, k, v =>
      if k0 == k then (k0, v) :: t else (k0, v0) :: dictSet t k v

/-- Python `d.get(k)` / `k in d` lookup. -/
def dictGet? : Record → String → Option PyVal
  | [], _ => none
  | (k0, v0) :: t, k => if k0 == k then some v0 else dictGet? t k

/-- Python `d.get(k, default)`. -/
def getD (d : Record) (k : String) (dflt : PyVal) : PyVal := (dictGet? d k).getD dflt

/-- Python `d.get(k)` with its implicit `None` default. -/
def getRaw (d : Record) (k : String) : PyVal := (dictGet? d k).getD vNone

/-- The cell rendering used for label matching (lines 42 and 79):
stripped, lowered `str` of the cell when non-NaN, else the empty string. -/
def cellText (g : Grid) (r c : Nat) : String :=
  if notna (g.cell r c) then pyLower (pyStrip (pyStr (g.cell r c))) else ""

/-- The find_booking_forms function from app.py: every cell whose lowered, stripped text
contains `"booking form"`, in row-major scan order. -/
def find_booking_forms (g : Grid) : List (Nat × Nat) :=
  (List.range g.nrows).flatMap (fun r =>
    (List.range g.ncols).filterMap (fun c =>
      if pyContains "booking form" (cellText g r c) then some (r, c) else none))

/-- First `some` in a list of options; models first-match-wins loops with
`break`. -/
def firstSome {α : Type} : List (Option α) → Option α
  | [] => none
  | some v :: _ => some v
  | none :: t => firstSome t

/-- The list `[a, a+1, ..., b-1]`, i.e. Python `range(a, b)`. -/
def natRange (a b : Nat) : List Nat := (List.range (b - a)).map (a + ·)

/-- The guard of line 85: a candidate value cell must be non-NaN, nonempty
after stripping, and not the literal `"#N/A"`. -/
def validValue (v : PyVal) : Bool :=
  notna v && !(pyStrip (pyStr v) == "") && !(pyStrip (pyStr v) == "#N/A")

/-- Lines 82-88: probe columns `col+1`, `col+2`, `col+3` (clipped to the grid
width) and take the first valid value, stripped. -/
def probeValue (g : Grid) (row col : Nat) : Option String :=
  firstSome ([1, 2, 3].map (fun off =>
    if col + off < g.ncols then
      if validValue (g.cell row (col + off)) then
        some (pyStrip (pyStr (g.cell row (col + off))))
      else none
    else none))

/-- Lines 77-92: scan the window row-major for a cell containing `pat`; on a
label match, try to take an adjacent value; keep scanning if none was taken. -/
def scanPattern (g : Grid) (pat : String) (rows cols : List Nat) : Option String :=
  firstSome (rows.map (fun r =>
    firstSome (cols.map (fun c =>
      if pyContains pat (cellText g r c) then probeValue g r c else none))))

/-- Lines 75-94: try each pattern in order; the first pattern that yields a
value wins and later patterns are not consulted. -/
def searchField (g : Grid) (pats : List String) (rows cols : List Nat) : Option String :=
  firstSome (pats.map (fun p => scanPattern g p rows cols))

/-- The `field_patterns` table (lines 57-71), in declaration order. -/
def field_patterns : List (String × List String) :=
  [("Description", ["description", "desc"]),
   ("Look", ["look"]),
   ("Reference", ["ref"]),
   ("Original Reference", ["original ref"]),
   ("Supplier Reference", ["supplier ref"]),
   ("Color", ["color", "colour"]),
   ("Total Units", ["uk total unit buy", "total unit"]),
   ("VCP", ["vcp"]),
   ("Factory", ["factory name", "factory"]),
   ("Booking Form Delivery", ["booking form delivery", "booking delivery"]),
   ("Confirmed Delivery", ["confirmed delivery", "confirm delivery"]),
   ("Ship Date", ["ship", "shipping"]),
   ("Warehouse Date", ["whs", "warehouse"])]

/-- Window rows `[form_start_row, min(form_start_row+50, nrows))` (line 54). -/
def windowRows (g : Grid) (fsr : Nat) : List Nat := natRange fsr (min (fsr + 50) g.nrows)

/-- Window columns `[max(0, form_start_col-2), min(form_start_col+8, ncols))`
(line 78); `Nat` subtraction truncates at 0 exactly like the `max`. -/
def windowCols (g : Grid) (fsc : Nat) : List Nat := natRange (fsc - 2) (min (fsc + 8) g.ncols)

/-- Lines 73-94: build `base_data` by searching every declared field in order. -/
def extractBase (g : Grid) (fsr fsc : Nat) : Record :=
  field_patterns.foldl (fun acc fp =>
    match searchField g fp.2 (windowRows g fsr) (windowCols g fsc) with
    | some v => dictSet acc fp.1 (vStr v)
    | none => acc) []

/-- The four delivery date fields of line 97. -/
def dateFields : List String :=
  ["Booking Form Delivery", "Confirmed Delivery", "Ship Date", "Warehouse Date"]

/-- Lines 96-102: add a `<Field>_Formatted` companion for every captured date
field whose `format_date` rendering is nonempty. -/
def addFormatted (d : Record) : Record :=
  dateFields.foldl (fun acc f =>
    match dictGet? acc f with
    | some raw =>
        let fd := format_date raw
        if fd == "" then acc else dictSet acc (f ++ "_Formatted") (vStr fd)
    | none => acc) d

/-- Membership in `['#N/A', '', 'N/A']` (lines 105 and 226); a non-string value
is never a member. -/
def inNAList : PyVal → Bool
  | vStr s => s == "#N/A" || s == "" || s == "N/A"
  | _ => false

/-- The extract_single_form_data function from app.py: the field record plus the (always
empty) lot list, or `None` when every captured value is a missing sentinel. -/
def extract_single_form_data (g : Grid) (fsr fsc : Nat) : Option Record × List Record :=
  let bd := addFormatted (extractBase g fsr fsc)
  if bd.isEmpty || bd.all (fun p => inNAList p.2) then (none, [])
  else (some bd, [])

/-- Lines 122-139: process each anchor in discovery order, numbering by the
enumeration index (so dropped forms still consume a number), and emit one lot
copy per surviving form. -/
def aggregateForms (g : Grid) (anchors : List (Nat × Nat)) : List Record × List Record :=
  anchors.enum.foldl (fun acc ia =>
    match (extract_single_form_data g ia.2.1 ia.2.2).1 with
    | some bd =>
        let bd2 := dictSet bd "Form_Number" (vInt ((ia.1 : Int) + 1))
        (acc.1 ++ [bd2], acc.2 ++ [dictSet bd2 "Lot Number" (vInt 1)])
    | none => acc) ([], [])

/-- The anchor list actually iterated: the located forms, or the single `(0,0)`
fallback anchor when none were found (lines 116-120). -/
def anchorsOf (g : Grid) : List (Nat × Nat) :=
  let anchors := find_booking_forms g
  if anchors.isEmpty then [(0, 0)] else anchors

/-- The extract_multi_lot_data function from app.py. -/
def extract_multi_lot_data (g : Grid) : List Record × List Record :=
  aggregateForms g (anchorsOf g)

/-- Remove every occurrence of a character, as Python replace-with-empty does. -/
def removeAllChar (c : Char) (l : List Char) : List Char := l.filter (fun x => !(x == c))

/-- Group 1 of the color-code regex search: after an opening bracket, the run up to the
first `']'`; `.` does not cross a newline, in which case the search resumes. -/
def takeUntilRB : List Char → Option (List Char)
  | [] => none
  | c :: rest =>
      if c == ']' then some []
      else if c == Char.ofNat 10 then none
      else (takeUntilRB rest).map (fun g => c :: g)

/-- Scan for the first successful `\[(.*?)\]` match. -/
def colorCodeSearch : List Char → Option (List Char)
  | [] => none
  | c :: rest =>
      if c == '[' then
        match takeUntilRB rest with
        | some g => some g
        | none => colorCodeSearch rest
      else colorCodeSearch rest

/-- Lines 149-156: split `"NAME [CODE]"` Factory values. -/
def processFactory (d : Record) : Record :=
  match dictGet? d "Factory" with
  | some (vStr s) =>
      if pyContains "[" s then
        match splitOnChar '[' s.toList with
        | p0 :: p1 :: _ =>
            dictSet (dictSet d "Factory" (vStr (String.mk (stripL p0))))
              "Factory ID" (vStr (String.mk (stripL (removeAllChar ']' p1))))
        | _ => d
      else d
  | _ => d

/-- Lines 158-165: split `"NAME [CODE]"` Color values. -/
def processColor (d : Record) : Record :=
  match dictGet? d "Color" with
  | some (vStr s) =>
      if pyContains "[" s then
        let d2 := dictSet d "Color" (vStr (String.mk (stripL ((splitOnChar '[' s.toList).headD []))))
        match colorCodeSearch s.toList with
        | some g => dictSet d2 "Color Code" (vStr (String.mk g))
        | none => d2
      else d
  | _ => d

/-- The process_form_data function from app.py. -/
def process_form_data (l : List Record) : List Record :=
  l.map (fun d => processColor (processFactory d))

/-- Python truthiness of the values the projector inspects (`None` is falsy,
a string is truthy iff nonempty, an int iff nonzero). -/
def truthy : PyVal → Bool
  | vNone => false
  | vStr s => !(s == "")
  | vInt n => !(n == 0)
  | vFloat ip frac => !(ip == 0 && frac.toList.all (fun c => c == '0'))
  | vDate _ _ _ => true

/-- Python `a or b`: `a` if truthy, else `b`. -/
def pyOr (a b : PyVal) : PyVal := if truthy a then a else b

/-- Lines 231-234: the `BOOKING FORM DELIVERY` fallback chain, with Python's
left-associated `or` and the final `''`. -/
def bookingDelivery (d : Record) : PyVal :=
  pyOr (pyOr (pyOr (pyOr (getRaw d "Booking Form Delivery_Formatted")
    (getRaw d "Ship Date_Formatted")) (getRaw d "Booking Form Delivery"))
    (getRaw d "Ship Date")) (vStr "")

/-- Lines 236-240: the `CONFIRMED DELIVERY` fallback chain, falling back to the
already-resolved booking delivery. -/
def confirmedDelivery (d : Record) : PyVal :=
  pyOr (pyOr (pyOr (pyOr (getRaw d "Confirmed Delivery_Formatted")
    (getRaw d "Warehouse Date_Formatted")) (getRaw d "Confirmed Delivery"))
    (getRaw d "Warehouse Date")) (bookingDelivery d)

/-- Lines 225-228: the projector's skip condition (`continue`). -/
def skipRow (d : Record) : Bool :=
  d.isEmpty || inNAList (getD d "Description" (vStr "")) ||
    (d.filter (fun p => truthy p.2)).all (fun p => inNAList p.2)

/-- Lines 242-257: one output row; `i` is the 1-based enumeration index over
the list handed to the projector.  String concatenations mirror the f-strings
and `+` of the source (all values reaching them are strings there). -/
def rowFor (d : Record) (i : Nat) : Record :=
  [("FORM_NO", vInt (i : Int)),
   ("IMAGE", vStr ""),
   ("SUPPLIER REFERENCE",
     vStr (if truthy (getRaw d "Reference")
           then pyUpper (pyStr (getD d "Reference" (vStr ""))) else "")),
   ("DESCRIPTION", getD d "Description" (vStr "")),
   ("COLOUR", getD d "Color" (vStr "TBC")),
   ("UNITS", getD d "Total Units" (vStr "")),
   ("BOOKING FORM DELIVERY", bookingDelivery d),
   ("CONFIRMED DELIVERY", confirmedDelivery d),
   ("VCP", getD d "VCP" (vStr "")),
   ("FACTORY",
     vStr (if truthy (getD d "Factory ID" (vStr ""))
           then pyStr (getD d "Factory" (vStr "")) ++ " - " ++ pyStr (getD d "Factory ID" (vStr ""))
           else pyStr (getD d "Factory" (vStr "")))),
   ("FABRIC COMP", vStr ""),
   ("SUSTAINABLE MESSAGE", vStr ""),
   ("COST", vStr ""),
   ("REMARKS", vStr ("Form " ++ pyStr (getD d "Form_Number" (vInt (i : Int)))))]

/-- The create_order_details_output_multi_form function from app.py: one row per
non-skipped record, enumerating the input list from 1. -/
def create_order_details_output_multi_form (l : List Record) : List Record :=
  l.enum.filterMap (fun p => if skipRow p.2 then none else some (rowFor p.2 (p.1 + 1)))

/-- The extraction-to-output pipeline of `main` (lines 833-926). -/
def pipeline (g : Grid) : List Record :=
  create_order_details_output_multi_form (process_form_data (extract_multi_lot_data g).1)

/-- Month number (1-12) of a 3-letter abbreviation. -/
def monthIdx (mon : String) : Option Nat := (monthNames.findIdx? (· == mon)).map (· + 1)

/-- Gregorian leap-year test. -/
def isLeapYear (y : Nat) : Bool := y % 4 == 0 && (y % 100 != 0 || y % 400 == 0)

/-- Days in a Gregorian month. -/
def daysInMonth (m y : Nat) : Nat :=
  if m == 2 then (if isLeapYear y then 29 else 28)
  else if m == 4 || m == 6 || m == 9 || m == 11 then 30 else 31

/-- Modelled from the spec: the DateNormalizer parse step used by the
fixed-position multi-lot strategy of section 4.3, which is not present in
src/app.py.  Parses the two recognized text shapes into canonical
(day, month, year); two-digit years are taken in the 2000s as in the worked
example (ship date 19 Jul 25 is 19-Jul-2025). -/
def parseDateShape (s : String) : Option (Nat × Nat × Nat) :=
  match splitWs s.toList with
  | [d, mon, a :: y2] =>
      if !d.isEmpty && d.all Char.isDigit && a == apos &&
         y2.length == 2 && y2.all Char.isDigit then
        (monthIdx (String.mk mon)).map (fun mi => (digitsVal d, mi, 2000 + digitsVal y2))
      else none
  | [dpart, tpart] =>
      match splitOnChar '-' dpart, splitOnChar ':' tpart with
      | [y, m, dd], [hh, mm, ss] =>
          if y.length == 4 && m.length == 2 && dd.length == 2 &&
             (y ++ m ++ dd).all Char.isDigit &&
             hh.length == 2 && mm.length == 2 && ss.length == 2 &&
             (hh ++ mm ++ ss).all Char.isDigit &&
             Nat.ble 1 (digitsVal m) && Nat.ble (digitsVal m) 12 &&
             Nat.ble 1 (digitsVal dd) && Nat.ble (digitsVal dd) 31 then
            some (digitsVal dd, digitsVal m, digitsVal y)
          else none
      | _, _ => none
  | _ => none

/-- Modelled from the spec: the fixed 12-day lead-time subtraction
(ex-factory = ship date minus 12 days) of sections 4.3 and 4.4, not present in
src/app.py; borrows from the previous month when the day is 12 or less. -/
def subLead : Nat × Nat × Nat → Nat × Nat × Nat
  | (d, m, y) =>
      if 12 < d then (d - 12, m, y)
      else
        let pm := if m == 1 then 12 else m - 1
        let py := if m == 1 then y - 1 else y
        (daysInMonth pm py + d - 12, pm, py)

/-- Render a canonical date as the `"D-Mon"` text of section 4.4. -/
def renderDMon : Nat × Nat × Nat → String
  | (d, m, _) => intToStr (d : Int) ++ "-" ++ ((monthNames.get? (m - 1)).getD "")

/-- Modelled from the spec: Lot construction of the fixed-position strategy
(section 4.3), not present in src/app.py.  A Lot with a parseable ship date
gains a derived ex-factory date; an unparseable ship date leaves the Lot
unchanged (the derived field is simply omitted, non-fatally). -/
def lotWithExFactory (lot : Record) : Record :=
  match dictGet? lot "Ship Date" with
  | some (vStr s) =>
      match parseDateShape s with
      | some dmy => dictSet lot "Ex-Factory Date" (vStr (renderDMon (subLead dmy)))
      | none => lot
  | _ => lot

/-- A sheet whose only form carries a Reference but no Description. -/
def gridRefOnly : Grid := mkGrid [[vStr "Booking Form"], [vStr "ref", vStr "ABC"]] 2

/-- A sheet with two marker cells in one row: the first form's window (columns
0-7) is empty, the second form (anchored at column 20) has a Description. -/
def gridTwoForms : Grid :=
  mkGrid
    [[vStr "Booking Form"] ++ List.replicate 19 vNone ++ [vStr "Booking Form", vNone],
     List.replicate 20 vNone ++ [vStr "desc", vStr "X"]] 22

/-- A sheet whose units cell holds the float `5.0`. -/
def gridFloatUnits : Grid := mkGrid [[vStr "total unit", vFloat 5 "0"]] 2

/-- A sheet whose description cell holds the sentinel text `"N/A"`. -/
def gridNASlash : Grid := mkGrid [[vStr "desc", vStr "N/A"]] 2

/-- A sheet where the second Color pattern (`"colour"`) matches a row earlier
than the first pattern (`"color"`). -/
def gridColorOrder : Grid :=
  mkGrid [[vStr "colour", vStr "V2"], [vStr "color", vStr "V1"]] 2

/-- A marker-free sheet (single-form fallback mode). -/
def gridNoMarker : Grid := mkGrid [[vStr "desc", vStr "X"]] 2

/-- A record whose only delivery-related field is the formatted warehouse date. -/
def recWarehouseOnly : Record :=
  [("Description", vStr "X"), ("Warehouse Date_Formatted", vStr "2-Aug"), ("Form_Number", vInt 1)]

/-- The specification's first date shape, read literally: a space-separated
digit day, 3-letter month, and apostrophe plus two-digit year. -/
def specDMonShape (s : String) : Bool :=
  match splitWs s.toList with
  | [d, mon, ytok] =>
      !d.isEmpty && d.all Char.isDigit && mon.length == 3 && mon.all Char.isAlpha &&
      (match ytok with
       | a :: y2 => a == apos && y2.length == 2 && y2.all Char.isDigit
       | [] => false)
  | _ => false

/-- The specification's second date shape, read literally:
`"YYYY-MM-DD HH:MM:SS"` with all-digit components. -/
def specIsoShape (s : String) : Bool :=
  match splitWs s.toList with
  | [dpart, tpart] =>
      (match splitOnChar '-' dpart with
       | [y, m, d] => y.length == 4 && m.length == 2 && d.length == 2 &&
           (y ++ m ++ d).all Char.isDigit
       | _ => false) &&
      (match splitOnChar ':' tpart with
       | [hh, mm, ss] => hh.length == 2 && mm.length == 2 && ss.length == 2 &&
           (hh ++ mm ++ ss).all Char.isDigit
       | _ => false)
  | _ => false

/-- The string stored under a key, when present (record fields feeding the
delivery chains are always strings). -/
def sGet (d : Record) (k : String) : Option String := (dictGet? d k).map pyStr

/-- The eight record keys consulted by the two delivery fallback chains. -/
def deliveryKeys : List String :=
  ["Booking Form Delivery_Formatted", "Ship Date_Formatted", "Booking Form Delivery",
   "Ship Date", "Confirmed Delivery_Formatted", "Warehouse Date_Formatted",
   "Confirmed Delivery", "Warehouse Date"]

/-- Right-nested chain of Python `or` over looked-up values with a final
default. -/
def orChainT : List (Option PyVal) → PyVal → PyVal
  | [], t => t
  | o :: l, t => pyOr (o.getD vNone) (orChainT l t)

/-- Is an optional value absent or a string?  (The record fields feeding the
delivery chains are always strings.) -/
def isStrOpt : Option PyVal → Bool
  | none => true
  | some (vStr _) => true
  | some _ => false

/-- The specification's reading of a fallback chain: the first present,
nonempty text wins; otherwise empty. -/
def firstNonEmptyStr : List (Option String) → String
  | [] => ""
  | some s :: t => if s == "" then firstNonEmptyStr t else s
  | none :: t => firstNonEmptyStr t

/-- The surviving record produced by one enumerated anchor, numbered by its
discovery index. -/
def formNumbered (g : Grid) (ia : Nat × (Nat × Nat)) : Option Record :=
  ((extract_single_form_data g ia.2.1 ia.2.2).1).map
    (fun bd => dictSet bd "Form_Number" (vInt ((ia.1 : Int) + 1)))

/-- The value invariant of the extraction guard: a stored string equals its own
strip, is nonempty and is not `"#N/A"`. -/
def storedOK (v : PyVal) : Prop :=
  ∃ s, v = vStr s ∧ pyStrip s = s ∧ s ≠ "" ∧ s ≠ "#N/A"

/-- Setting a key makes it readable back. -/
theorem dictGet?_dictSet_self (d : Record) (k : String) (v : PyVal) :
    dictGet? (dictSet d k v) k = some v := by
  induction d with
  | nil => simp [dictSet, dictGet?]
  | cons p t ih =>
      obtain ⟨k0, v0⟩ := p
      by_cases h : k0 = k
      · simp [dictSet, dictGet?, h]
      · simp [dictSet, dictGet?, h, ih]

/-- Setting a key leaves other keys unchanged. -/
theorem dictGet?_dictSet_ne (d : Record) (k k' : String) (v : PyVal) (h : k ≠ k') :
    dictGet? (dictSet d k v) k' = dictGet? d k' := by
  have h' : ¬(k' = k) := fun hh => h hh.symm
  induction d with
  | nil => simp [dictSet, dictGet?, h]
  | cons p t ih =>
      obtain ⟨k0, v0⟩ := p
      by_cases h0 : k0 = k
      · subst h0
        simp [dictSet, dictGet?, h]
      · by_cases h1 : k0 = k'
        · simp [dictSet, dictGet?, h0, h1, h']
        · simp [dictSet, dictGet?, h0, h1, ih]

/-- Every pair of an updated dict is an original pair or carries the new value. -/
theorem mem_dictSet {d : Record} {k : String} {v : PyVal} {p : String × PyVal}
    (h : p ∈ dictSet d k v) : p ∈ d ∨ p.2 = v := by
  induction d with
  | nil => simp [dictSet] at h; simp [h]
  | cons q t ih =>
      obtain ⟨k0, v0⟩ := q
      by_cases h0 : k0 = k
      · simp [dictSet, h0] at h
        rcases h with h | h
        · right; simp [h]
        · left; simp [h]
      · simp [dictSet, h0] at h
        rcases h with h | h
        · left; simp [h]
        · rcases ih h with hh | hh
          · left; simp [hh]
          · right; exact hh

/-- A successful lookup exhibits a pair of the dict. -/
theorem dictGet?_mem {d : Record} {k : String} {v : PyVal}
    (h : dictGet? d k = some v) : (k, v) ∈ d := by
  induction d with
  | nil => simp [dictGet?] at h
  | cons q t ih =>
      obtain ⟨k0, v0⟩ := q
      by_cases h0 : k0 = k
      · subst h0
        simp [dictGet?] at h
        simp [h]
      · simp [dictGet?, h0] at h
        simp [ih h]

/-- The first hit of a mapped option list comes from some element. -/
theorem firstSome_map_eq_some {α β : Type} {l : List α} {f : α → Option β} {v : β}
    (h : firstSome (l.map f) = some v) : ∃ x ∈ l, f x = some v := by
  induction l with
  | nil => simp [firstSome] at h
  | cons a t ih =>
      cases hf : f a with
      | some w =>
          refine ⟨a, by simp, ?_⟩
          rw [List.map_cons, hf] at h
          simp [firstSome] at h
          simp [hf, h]
      | none =>
          rw [List.map_cons, hf] at h
          simp only [firstSome] at h
          obtain ⟨x, hx, hfx⟩ := ih h
          exact ⟨x, by simp [hx], hfx⟩

/-- Evaluating firstSome over an append scans the left part first. -/
theorem firstSome_append {α : Type} (a b : List (Option α)) :
    firstSome (a ++ b) =
      match firstSome a with
      | some v => some v
      | none => firstSome b := by
  induction a with
  | nil => simp [firstSome]
  | cons o t ih =>
      cases o with
      | some v => simp [firstSome]
      | none => simp [firstSome, ih]

/-- Python or associates. -/
theorem pyOr_assoc (a b c : PyVal) : pyOr (pyOr a b) c = pyOr a (pyOr b c) := by
  by_cases ha : truthy a <;> by_cases hb : truthy b <;> simp [pyOr, ha, hb]

/-- Flatten the projector's left-nested `or` into a right-nested chain. -/
theorem pyOr_nest4 (a b c d e : PyVal) :
    pyOr (pyOr (pyOr (pyOr a b) c) d) e = pyOr a (pyOr b (pyOr c (pyOr d e))) := by
  rw [pyOr_assoc, pyOr_assoc, pyOr_assoc]

/-- On string-valued entries, the Python `or` chain computes exactly the
first-nonempty resolution, with the tail string as last resort. -/
theorem orChainT_spec (l : List (Option PyVal)) (ts : String)
    (h : ∀ o ∈ l, isStrOpt o = true) :
    orChainT l (vStr ts) =
      vStr (firstNonEmptyStr (l.map (Option.map pyStr) ++ [some ts])) := by
  induction l with
  | nil =>
      by_cases hts : ts = "" <;> simp [orChainT, firstNonEmptyStr, hts]
  | cons o t ih =>
      have ho : isStrOpt o = true := h o (by simp)
      have ht : ∀ o ∈ t, isStrOpt o = true := fun x hx => h x (by simp [hx])
      cases o with
      | none => simp [orChainT, pyOr, truthy, firstNonEmptyStr, ih ht]
      | some v =>
          cases v with
          | vStr s =>
              by_cases hs : s = "" <;>
                simp [orChainT, pyOr, truthy, pyStr, firstNonEmptyStr, hs, ih ht]
          | vNone => simp [isStrOpt] at ho
          | vInt n => simp [isStrOpt] at ho
          | vFloat a b => simp [isStrOpt] at ho
          | vDate a b c => simp [isStrOpt] at ho

/-- Appending an empty-string last resort changes nothing. -/
theorem firstNonEmptyStr_append_empty (l : List (Option String)) :
    firstNonEmptyStr (l ++ [some ""]) = firstNonEmptyStr l := by
  induction l with
  | nil => simp [firstNonEmptyStr]
  | cons o t ih =>
      cases o with
      | none => simp [firstNonEmptyStr, ih]
      | some s =>
          by_cases hs : s = "" <;> simp [firstNonEmptyStr, hs, ih]

/-- The booking-delivery chain as a right-nested `or` chain. -/
theorem bookingDelivery_eq_chain (d : Record) :
    bookingDelivery d =
      orChainT [dictGet? d "Booking Form Delivery_Formatted",
        dictGet? d "Ship Date_Formatted", dictGet? d "Booking Form Delivery",
        dictGet? d "Ship Date"] (vStr "") := by
  unfold bookingDelivery getRaw
  rw [pyOr_nest4]
  simp only [orChainT]

/-- The confirmed-delivery chain as a right-nested `or` chain ending in the
resolved booking delivery. -/
theorem confirmedDelivery_eq_chain (d : Record) :
    confirmedDelivery d =
      orChainT [dictGet? d "Confirmed Delivery_Formatted",
        dictGet? d "Warehouse Date_Formatted", dictGet? d "Confirmed Delivery",
        dictGet? d "Warehouse Date"] (bookingDelivery d) := by
  unfold confirmedDelivery getRaw
  rw [pyOr_nest4]
  simp only [orChainT]

/-- Unrolling the aggregation fold: it appends, per surviving anchor, the
numbered record to the first component and its Lot copy to the second. -/
theorem aggregateForms_foldl (g : Grid) (l : List (Nat × (Nat × Nat))) (a b : List Record) :
    l.foldl (fun acc ia =>
      match (extract_single_form_data g ia.2.1 ia.2.2).1 with
      | some bd =>
          let bd2 := dictSet bd "Form_Number" (vInt ((ia.1 : Int) + 1))
          (acc.1 ++ [bd2], acc.2 ++ [dictSet bd2 "Lot Number" (vInt 1)])
      | none => acc) (a, b) =
    (a ++ l.filterMap (formNumbered g),
     b ++ l.filterMap (fun ia => (formNumbered g ia).map
        (fun d => dictSet d "Lot Number" (vInt 1)))) := by
  induction l generalizing a b with
  | nil => simp
  | cons ia t ih =>
      cases hx : (extract_single_form_data g ia.2.1 ia.2.2).1 with
      | some bd =>
          simp only [List.foldl_cons, hx]
          rw [ih]
          simp [formNumbered, hx]
      | none =>
          simp only [List.foldl_cons, hx]
          rw [ih]
          simp [formNumbered, hx]

/-- Dropping twice drops once. -/
theorem dropWhile_dropWhile {α : Type} (p : α → Bool) (l : List α) :
    (l.dropWhile p).dropWhile p = l.dropWhile p := by
  induction l with
  | nil => rfl
  | cons c t ih =>
      by_cases h : p c
      · simp [List.dropWhile_cons, h, ih]
      · simp [List.dropWhile_cons, h]

/-- The two-sided whitespace strip is idempotent (stated for any predicate). -/
theorem strip2_idem {α : Type} (p : α → Bool) (l : List α) :
    ((((((l.dropWhile p).reverse.dropWhile p).reverse).dropWhile p).reverse).dropWhile p).reverse =
      ((l.dropWhile p).reverse.dropWhile p).reverse := by
  have hA : (l.dropWhile p).dropWhile p = l.dropWhile p := dropWhile_dropWhile p l
  have hstep1 : (((l.dropWhile p).reverse.dropWhile p).reverse).dropWhile p =
      ((l.dropWhile p).reverse.dropWhile p).reverse := by
    rcases hb : ((l.dropWhile p).reverse.dropWhile p).reverse with _ | ⟨x, xs⟩
    · simp
    · have htw : (l.dropWhile p).reverse.takeWhile p ++ (l.dropWhile p).reverse.dropWhile p
          = (l.dropWhile p).reverse :=
        List.takeWhile_append_dropWhile p (l.dropWhile p).reverse
      have ha : l.dropWhile p =
          ((l.dropWhile p).reverse.dropWhile p).reverse ++
            ((l.dropWhile p).reverse.takeWhile p).reverse := by
        have h2 := congrArg List.reverse htw
        rw [List.reverse_append, List.reverse_reverse] at h2
        exact h2.symm
      have ha' : l.dropWhile p =
          x :: (xs ++ ((l.dropWhile p).reverse.takeWhile p).reverse) := by
        rw [hb] at ha
        simpa using ha
      have hx : p x = false := by
        cases hpx : p x with
        | false => rfl
        | true =>
            exfalso
            have hthis := hA
            rw [ha', List.dropWhile_cons, hpx] at hthis
            simp only [if_true] at hthis
            have hlen := congrArg List.length hthis
            have hle := (List.dropWhile_sublist (l := xs ++
              ((l.dropWhile p).reverse.takeWhile p).reverse) p).length_le
            rw [List.length_cons] at hlen
            omega
      simp [List.dropWhile_cons, hx]
  rw [hstep1, List.reverse_reverse, dropWhile_dropWhile]

/-- Python stripping is idempotent. -/
theorem stripL_idem (l : List Char) : stripL (stripL l) = stripL l := by
  have h := strip2_idem Char.isWhitespace l
  simpa [stripL] using h

/-- Python stripping of strings is idempotent. -/
theorem pyStrip_idem (s : String) : pyStrip (pyStrip s) = pyStrip s := by
  unfold pyStrip
  rw [show (String.mk (stripL s.toList)).toList = stripL s.toList from rfl, stripL_idem]

/-- Digit characters of small numbers really are digits. -/
theorem digitChar_isDigit (n : Nat) (h : n < 10) : (Nat.digitChar n).isDigit = true := by
  interval_cases n <;> decide

/-- Every character the digit renderer emits is a digit. -/
theorem natToCharsAux_digits (fuel : Nat) :
    ∀ n c, c ∈ natToCharsAux fuel n → c.isDigit = true := by
  induction fuel with
  | zero => intro n c hc; simp [natToCharsAux] at hc
  | succ f ih =>
      intro n c hc
      rw [natToCharsAux] at hc
      by_cases h : n < 10
      · simp [h] at hc
        subst hc
        exact digitChar_isDigit n h
      · simp [h] at hc
        rcases hc with hc | hc
        · exact ih _ _ hc
        · subst hc
          exact digitChar_isDigit _ (Nat.mod_lt _ (by omega))

/-- Every character of `natToChars n` is a digit. -/
theorem natToChars_digits (n : Nat) : ∀ c ∈ natToChars n, c.isDigit = true := by
  intro c hc
  exact natToCharsAux_digits (n + 1) n c hc

/-- A probed value is the stripped rendering of one of the three cells right
of the matched label, and that cell passed the validity guard. -/
theorem probeValue_sound {g : Grid} {row col : Nat} {s : String}
    (h : probeValue g row col = some s) :
    ∃ off ∈ ([1, 2, 3] : List Nat), col + off < g.ncols ∧
      validValue (g.cell row (col + off)) = true ∧
      s = pyStrip (pyStr (g.cell row (col + off))) := by
  obtain ⟨off, hoff, hf⟩ := firstSome_map_eq_some h
  refine ⟨off, hoff, ?_⟩
  by_cases h1 : col + off < g.ncols
  · simp only [h1, if_true] at hf
    by_cases h2 : validValue (g.cell row (col + off)) = true
    · simp only [h2, if_true] at hf
      exact ⟨h1, h2, (Option.some.injEq _ _ ▸ hf).symm⟩
    · simp [h2] at hf
  · simp [h1] at hf

/-- A scanned value comes from a probe at a window cell whose text contains
the pattern. -/
theorem scanPattern_sound {g : Grid} {pat : String} {rows cols : List Nat} {s : String}
    (h : scanPattern g pat rows cols = some s) :
    ∃ r ∈ rows, ∃ c ∈ cols, pyContains pat (cellText g r c) = true ∧
      probeValue g r c = some s := by
  obtain ⟨r, hr, hrow⟩ := firstSome_map_eq_some h
  obtain ⟨c, hc, hcell⟩ := firstSome_map_eq_some hrow
  by_cases hm : pyContains pat (cellText g r c) = true
  · simp only [hm, if_true] at hcell
    exact ⟨r, hr, c, hc, hm, hcell⟩
  · simp [hm] at hcell

/-- A field value comes from a scan of one of the field's patterns. -/
theorem searchField_sound {g : Grid} {pats : List String} {rows cols : List Nat} {s : String}
    (h : searchField g pats rows cols = some s) :
    ∃ p ∈ pats, scanPattern g p rows cols = some s :=
  firstSome_map_eq_some h

/-- A value passing the guard, once stripped, satisfies the invariant. -/
theorem storedOK_of_validValue {v : PyVal} (h : validValue v = true) :
    storedOK (vStr (pyStrip (pyStr v))) := by
  unfold validValue at h
  simp only [Bool.and_eq_true, Bool.not_eq_true', beq_eq_false_iff_ne] at h
  exact ⟨pyStrip (pyStr v), rfl, pyStrip_idem _, h.1.2, h.2⟩

/-- Every field value placed by the label-search loop satisfies the invariant. -/
theorem extractBase_storedOK {g : Grid} {fsr fsc : Nat} {p : String × PyVal}
    (hp : p ∈ extractBase g fsr fsc) : storedOK p.2 := by
  unfold extractBase at hp
  have hgen : ∀ (fps : List (String × List String)) (acc : Record),
      (∀ q ∈ acc, storedOK q.2) →
      ∀ q ∈ fps.foldl (fun acc fp =>
        match searchField g fp.2 (windowRows g fsr) (windowCols g fsc) with
        | some v => dictSet acc fp.1 (vStr v)
        | none => acc) acc, storedOK q.2 := by
    intro fps
    induction fps with
    | nil => intro acc hacc q hq; exact hacc q hq
    | cons fp t ih =>
        intro acc hacc q hq
        simp only [List.foldl_cons] at hq
        cases hs : searchField g fp.2 (windowRows g fsr) (windowCols g fsc) with
        | none =>
            rw [hs] at hq
            exact ih acc hacc q hq
        | some v =>
            rw [hs] at hq
            refine ih _ ?_ q hq
            intro q' hq'
            rcases mem_dictSet hq' with hmem | hval
            · exact hacc q' hmem
            · rw [hval]
              obtain ⟨pat, _, hscan⟩ := searchField_sound hs
              obtain ⟨r, _, c, _, _, hprobe⟩ := scanPattern_sound hscan
              obtain ⟨off, _, _, hvalid, hsv⟩ := probeValue_sound hprobe
              rw [hsv]
              exact storedOK_of_validValue hvalid
  exact hgen field_patterns [] (by simp) p hp

/-- Extraction in closed form over the enumerated anchors. -/
theorem extract_multi_lot_data_eq (g : Grid) :
    extract_multi_lot_data g =
      ((anchorsOf g).enum.filterMap (formNumbered g),
       ((anchorsOf g).enum.filterMap (formNumbered g)).map
         (fun d => dictSet d "Lot Number" (vInt 1))) := by
  unfold extract_multi_lot_data aggregateForms
  rw [aggregateForms_foldl]
  simp [List.map_filterMap]

/-- One step of `firstSome`. -/
theorem firstSome_cons {α : Type} (o : Option α) (t : List (Option α)) :
    firstSome (o :: t) =
      match o with
      | some v => some v
      | none => firstSome t := by
  cases o <;> rfl

/-- Scanning a flattened row-major list equals scanning rows then columns. -/
theorem firstSome_flatMap {α β γ : Type} (l : List α) (f : α → List β) (h : β → Option γ) :
    firstSome ((l.flatMap f).map h) =
      firstSome (l.map (fun a => firstSome ((f a).map h))) := by
  induction l with
  | nil => rfl
  | cons a t ih =>
      rw [List.flatMap_cons, List.map_append, firstSome_append, List.map_cons, firstSome_cons]
      cases hfa : firstSome ((f a).map h) with
      | some v => rfl
      | none => exact ih

/-- A guarded `filterMap` is a `filter` after `map`. -/
theorem list_filterMap_guard {α β : Type} (l : List α) (f : α → β) (p : β → Bool) :
    l.filterMap (fun a => if p (f a) then some (f a) else none) = (l.map f).filter p := by
  induction l with
  | nil => rfl
  | cons a t ih => by_cases h : p (f a) <;> simp [h, ih]

/-- Filtering commutes with flattening. -/
theorem filter_flatMap {α β : Type} (l : List α) (f : α → List β) (p : β → Bool) :
    (l.flatMap f).filter p = l.flatMap (fun a => (f a).filter p) := by
  induction l with
  | nil => rfl
  | cons a t ih => simp [List.flatMap_cons, List.filter_append, ih]

/-- Every character of a whitespace-split group comes from the splitter's
accumulator or its input. -/
theorem mem_splitWsGo (l : List Char) :
    ∀ (cur g : List Char), g ∈ splitWsGo cur l → ∀ c ∈ g, c ∈ cur ∨ c ∈ l := by
  induction l with
  | nil =>
      intro cur g hg c hc
      cases hcur : cur.isEmpty with
      | true => simp [splitWsGo, hcur] at hg
      | false =>
          simp [splitWsGo, hcur] at hg
          subst hg
          simp at hc
          exact Or.inl hc
  | cons x rest ih =>
      intro cur g hg c hc
      cases hx : x.isWhitespace with
      | true =>
          cases hcur : cur.isEmpty with
          | true =>
              simp [splitWsGo, hx, hcur] at hg
              rcases ih [] g hg c hc with h | h
              · simp at h
              · exact Or.inr (by simp [h])
          | false =>
              simp [splitWsGo, hx, hcur] at hg
              rcases hg with hg | hg
              · subst hg
                simp at hc
                exact Or.inl hc
              · rcases ih [] g hg c hc with h | h
                · simp at h
                · exact Or.inr (by simp [h])
      | false =>
          simp [splitWsGo, hx] at hg
          rcases ih (x :: cur) g hg c hc with h | h
          · rcases List.mem_cons.mp h with h | h
            · exact Or.inr (by simp [h])
            · exact Or.inl h
          · exact Or.inr (by simp [h])

/-- Characters of a split token occur in the split string. -/
theorem mem_of_mem_splitWs {l g : List Char} (hg : g ∈ splitWs l) {c : Char} (hc : c ∈ g) :
    c ∈ l := by
  rcases mem_splitWsGo l [] g hg c hc with h | h
  · simp at h
  · exact h

/-- A character member yields a positive one-character containment test. -/
theorem containsL_singleton_of_mem {c : Char} {l : List Char} (h : c ∈ l) :
    containsL [c] l = true := by
  induction l with
  | nil => simp at h
  | cons a t ih =>
      rcases List.mem_cons.mp h with h | h
      · subst h
        simp [containsL, startsWithL]
      · simp [containsL, ih h]

/-- A split into at least two groups certifies the separator occurs. -/
theorem containsL_of_splitOnChar {sep : Char} {l : List Char} {g1 g2 : List Char}
    {gs : List (List Char)} (h : splitOnChar sep l = g1 :: g2 :: gs) :
    containsL [sep] l = true := by
  induction l generalizing g1 g2 gs with
  | nil => simp [splitOnChar] at h
  | cons x rest ih =>
      by_cases hx : x = sep
      · subst hx
        simp [containsL, startsWithL]
      · have hx' : (x == sep) = false := by simp [hx]
        simp only [splitOnChar, hx', if_false] at h
        cases hs : splitOnChar sep rest with
        | nil =>
            rw [hs] at h
            simp at h
        | cons g gs' =>
            rw [hs] at h
            cases gs' with
            | nil => simp at h
            | cons g2' gs'' =>
                simp only [containsL, startsWithL]
                rw [ih hs]
                simp

/-- The apostrophe branch of `format_date`: first two whitespace tokens joined
with a dash. -/
theorem fd_apos_branch (s : String) (p0 p1 : List Char) (rest : List (List Char))
    (hA : pyContains aposS s = true) (hsp : splitWs s.toList = p0 :: p1 :: rest) :
    format_date (vStr s) = String.mk p0 ++ "-" ++ String.mk p1 := by
  have hsp' : splitWs s.data = p0 :: p1 :: rest := hsp
  simp [format_date, hA, hsp']

/-- The `00:00:00` branch of `format_date`: re-render day and mapped month.  -/
theorem fd_iso_branch (s : String) (dpart : List Char) (rest : List (List Char))
    (y m dd : List Char) (mi di : Int) (nm : String)
    (hA : pyContains aposS s = false) (h0 : pyContains "00:00:00" s = true)
    (hsp : splitWs s.toList = dpart :: rest) (hd : splitOnChar '-' dpart = [y, m, dd])
    (hm : pyIntOfStr (String.mk m) = some mi) (hdd : pyIntOfStr (String.mk dd) = some di)
    (hnm : pyIndex monthNames (mi - 1) = some nm) :
    format_date (vStr s) = intToStr di ++ "-" ++ nm := by
  have hdash : containsL ['-'] dpart = true := containsL_of_splitOnChar hd
  have hsp' : splitWs s.data = dpart :: rest := hsp
  simp [format_date, hA, h0, hsp', hdash, hd, hm, hdd, hnm]

/-- The datetime branch of `format_date`. -/
theorem fd_date_branch (d m y : Nat) (nm : String)
    (hnm : pyIndex monthNames ((m : Int) - 1) = some nm) :
    format_date (vDate d m y) = intToStr (d : Int) ++ "-" ++ nm := by
  simp [format_date, hnm]

/-- Strings in neither recognized branch yield the empty result. -/
theorem fd_vstr_other (s : String) (hA : pyContains aposS s = false)
    (h0 : pyContains "00:00:00" s = false) : format_date (vStr s) = "" := by
  simp [format_date, hA, h0]

/-- C9: per-form extraction never emits any Lot of its own, so the aggregate
lot list is exactly one copy of each surviving form's base record with
`Lot Number` set to 1, in the same order; no form contributes more than one
lot entry. -/
theorem c9_lot_list_is_base_copy :
    (∀ (g : Grid) (fsr fsc : Nat), (extract_single_form_data g fsr fsc).2 = ([] : List Record)) ∧
    (∀ g : Grid, (extract_multi_lot_data g).2 =
      (extract_multi_lot_data g).1.map (fun d => dictSet d "Lot Number" (vInt 1))) := by
  constructor
  · intro g fsr fsc
    by_cases hc : ((addFormatted (extractBase g fsr fsc)).isEmpty ||
        (addFormatted (extractBase g fsr fsc)).all (fun p => inNAList p.2)) = true
    · simp [extract_single_form_data, hc]
    · simp [extract_single_form_data, hc]
  · intro g
    rw [extract_multi_lot_data_eq]

/-- C8: the form locator returns one anchor per cell whose stripped lowered
text contains `"booking form"`, in row-major order; and when no marker exists
the extraction proceeds with the single anchor `(0, 0)`. -/
theorem c8_locator_and_fallback :
    (∀ g : Grid, find_booking_forms g =
      ((List.range g.nrows).flatMap (fun r => (List.range g.ncols).map (fun c => (r, c)))).filter
        (fun rc => pyContains "booking form" (cellText g rc.1 rc.2))) ∧
    (∀ (g : Grid) (r c : Nat), (r, c) ∈ find_booking_forms g ↔
      r < g.nrows ∧ c < g.ncols ∧ pyContains "booking form" (cellText g r c) = true) ∧
    (∀ g : Grid, find_booking_forms g = [] →
      extract_multi_lot_data g = aggregateForms g [(0, 0)]) := by
  have hshape : ∀ g : Grid, find_booking_forms g =
      ((List.range g.nrows).flatMap (fun r => (List.range g.ncols).map (fun c => (r, c)))).filter
        (fun rc => pyContains "booking form" (cellText g rc.1 rc.2)) := by
    intro g
    unfold find_booking_forms
    rw [filter_flatMap]
    exact congrArg (fun f => (List.range g.nrows).flatMap f) (funext fun r =>
      (list_filterMap_guard (List.range g.ncols) (fun c => (r, c))
        (fun rc => pyContains "booking form" (cellText g rc.1 rc.2))).symm ▸
        (list_filterMap_guard (List.range g.ncols) (fun c => (r, c))
          (fun rc => pyContains "booking form" (cellText g rc.1 rc.2))))
  refine ⟨hshape, ?_, ?_⟩
  · intro g r c
    rw [hshape g]
    constructor
    · intro hmem
      obtain ⟨hin, hmark⟩ := List.mem_filter.mp hmem
      obtain ⟨r', hr', hmem2⟩ := List.mem_flatMap.mp hin
      obtain ⟨c', hc', heq⟩ := List.mem_map.mp hmem2
      injection heq with h1 h2
      subst h1
      subst h2
      exact ⟨List.mem_range.mp hr', List.mem_range.mp hc', hmark⟩
    · rintro ⟨hr, hc, hmark⟩
      refine List.mem_filter.mpr ⟨?_, hmark⟩
      refine List.mem_flatMap.mpr ⟨r, List.mem_range.mpr hr, ?_⟩
      exact List.mem_map.mpr ⟨c, List.mem_range.mpr hc, rfl⟩
  · intro g h
    unfold extract_multi_lot_data anchorsOf
    rw [h]
    rfl

/-- C6: field search precedence.  Pattern order outranks position order: if a
field's first pattern yields any value in the window, that value is the
field's result regardless of where later patterns would have matched; if it
yields none the remaining patterns are consulted in order.  Within one
pattern the scan is row-major (rows outrank columns), and value offsets are
probed in the order +1, +2, +3 with the first valid cell winning. -/
theorem c6_search_precedence :
    (∀ (g : Grid) (p : String) (rest : List String) (rows cols : List Nat) (v : String),
      scanPattern g p rows cols = some v →
        searchField g (p :: rest) rows cols = some v) ∧
    (∀ (g : Grid) (p : String) (rest : List String) (rows cols : List Nat),
      scanPattern g p rows cols = none →
        searchField g (p :: rest) rows cols = searchField g rest rows cols) ∧
    (∀ (g : Grid) (p : String) (rows cols : List Nat),
      scanPattern g p rows cols =
        firstSome ((rows.flatMap (fun r => cols.map (fun c => (r, c)))).map
          (fun rc => if pyContains p (cellText g rc.1 rc.2) then probeValue g rc.1 rc.2
                     else none))) ∧
    (∀ (g : Grid) (row col : Nat), col + 1 < g.ncols →
      validValue (g.cell row (col + 1)) = true →
        probeValue g row col = some (pyStrip (pyStr (g.cell row (col + 1))))) := by
  refine ⟨?_, ?_, ?_, ?_⟩
  · intro g p rest rows cols v h
    unfold searchField
    rw [List.map_cons, firstSome_cons, h]
  · intro g p rest rows cols h
    unfold searchField
    rw [List.map_cons, firstSome_cons, h]
  · intro g p rows cols
    rw [firstSome_flatMap]
    unfold scanPattern
    refine congrArg firstSome (List.map_congr_left ?_)
    intro r _
    refine congrArg firstSome ?_
    rw [List.map_map]
    rfl
  · intro g row col h1 h2
    unfold probeValue
    simp [h1, h2, firstSome]

/-- C6 witness: the second Color pattern matches row 0 while the first only
matches row 1, yet the first pattern's value wins. -/
theorem c6_search_precedence_witness :
    searchField gridColorOrder ["color", "colour"] (natRange 0 2) (natRange 0 2) = some "V1" ∧
    scanPattern gridColorOrder "colour" (natRange 0 2) (natRange 0 2) = some "V2" := by
  constructor
  · exact c6_search_precedence.1 gridColorOrder "color" ["colour"] (natRange 0 2)
      (natRange 0 2) "V1" (by decide)
  · decide

/-- C8 witness: a marker-free sheet is processed through the single fallback
anchor. -/
theorem c8_locator_and_fallback_witness :
    extract_multi_lot_data gridNoMarker = aggregateForms gridNoMarker [(0, 0)] :=
  c8_locator_and_fallback.2.2 gridNoMarker (by decide)

/-- C2 (modelled from the spec, section 4.3): a Lot whose Ship Date parses
gains an ex-factory date equal to the ship date minus the fixed 12-day lead
time; an unparseable ship date leaves the Lot unchanged (record construction
still succeeds); ship date 19-Jul-2025 yields ex-factory 7-Jul. -/
theorem c2_exfactory_lead_time :
    (∀ (lot : Record) (s : String) (dmy : Nat × Nat × Nat),
      dictGet? lot "Ship Date" = some (vStr s) → parseDateShape s = some dmy →
        dictGet? (lotWithExFactory lot) "Ex-Factory Date" =
          some (vStr (renderDMon (subLead dmy)))) ∧
    (∀ (lot : Record) (s : String),
      dictGet? lot "Ship Date" = some (vStr s) → parseDateShape s = none →
        lotWithExFactory lot = lot) ∧
    parseDateShape ("19 Jul " ++ aposS ++ "25") = some (19, 7, 2025) ∧
    renderDMon (subLead (19, 7, 2025)) = "7-Jul" := by
  refine ⟨?_, ?_, by decide, by decide⟩
  · intro lot s dmy h1 h2
    unfold lotWithExFactory
    rw [h1]
    dsimp only
    rw [h2]
    exact dictGet?_dictSet_self lot "Ex-Factory Date" (vStr (renderDMon (subLead dmy)))
  · intro lot s h1 h2
    unfold lotWithExFactory
    rw [h1]
    dsimp only
    rw [h2]

/-- C2 witness: the worked example, run through the Lot constructor. -/
theorem c2_exfactory_lead_time_witness :
    dictGet? (lotWithExFactory [("Ship Date", vStr ("19 Jul " ++ aposS ++ "25"))])
      "Ex-Factory Date" = some (vStr "7-Jul") := by
  have h := c2_exfactory_lead_time.1 [("Ship Date", vStr ("19 Jul " ++ aposS ++ "25"))]
    ("19 Jul " ++ aposS ++ "25") (19, 7, 2025) (by decide) (by decide)
  exact h.trans (by decide)

/-- C10: every value the label-search loop stores is a string that is nonempty
after stripping (indeed already stripped) and is not `"#N/A"`; the hashless
sentinel `"N/A"` can still be captured, as the concrete sheet shows. -/
theorem c10_stored_value_invariant :
    (∀ (g : Grid) (fsr fsc : Nat) (k : String) (v : PyVal),
      (k, v) ∈ extractBase g fsr fsc →
        ∃ s, v = vStr s ∧ pyStrip s = s ∧ s ≠ "" ∧ s ≠ "#N/A") ∧
    ("Description", vStr "N/A") ∈ extractBase gridNASlash 0 0 := by
  constructor
  · intro g fsr fsc k v h
    exact extractBase_storedOK h
  · decide

/-- C10 witness: the invariant applied to the captured `"N/A"` value. -/
theorem c10_stored_value_invariant_witness :
    ∃ s, vStr "N/A" = vStr s ∧ pyStrip s = s ∧ s ≠ "" ∧ s ≠ "#N/A" :=
  c10_stored_value_invariant.1 gridNASlash 0 0 "Description" (vStr "N/A")
    c10_stored_value_invariant.2

/-- C1: for every surviving record (string-valued delivery fields), the
projector's BOOKING FORM DELIVERY column is the first nonempty value among
formatted Booking Form Delivery, formatted Ship Date, raw Booking Form
Delivery, raw Ship Date, else empty; CONFIRMED DELIVERY is the first nonempty
among formatted Confirmed Delivery, formatted Warehouse Date, raw Confirmed
Delivery, raw Warehouse Date, then the already-resolved booking value, else
empty. -/
theorem c1_delivery_fallback_chains (d : Record) (i : Nat)
    (h : (deliveryKeys.all (fun k => isStrOpt (dictGet? d k))) = true)
    (_hsurv : skipRow d = false) :
    dictGet? (rowFor d i) "BOOKING FORM DELIVERY" =
      some (vStr (firstNonEmptyStr [sGet d "Booking Form Delivery_Formatted",
        sGet d "Ship Date_Formatted", sGet d "Booking Form Delivery",
        sGet d "Ship Date"])) ∧
    dictGet? (rowFor d i) "CONFIRMED DELIVERY" =
      some (vStr (firstNonEmptyStr [sGet d "Confirmed Delivery_Formatted",
        sGet d "Warehouse Date_Formatted", sGet d "Confirmed Delivery",
        sGet d "Warehouse Date",
        some (firstNonEmptyStr [sGet d "Booking Form Delivery_Formatted",
          sGet d "Ship Date_Formatted", sGet d "Booking Form Delivery",
          sGet d "Ship Date"])])) := by
  simp only [deliveryKeys, List.all_cons, List.all_nil, Bool.and_eq_true, Bool.and_true] at h
  obtain ⟨h1, h2, h3, h4, h5, h6, h7, h8⟩ := h
  have hbook : bookingDelivery d =
      vStr (firstNonEmptyStr [sGet d "Booking Form Delivery_Formatted",
        sGet d "Ship Date_Formatted", sGet d "Booking Form Delivery",
        sGet d "Ship Date"]) := by
    rw [bookingDelivery_eq_chain]
    rw [orChainT_spec _ _ (by
      intro o ho
      simp only [List.mem_cons, List.not_mem_nil, or_false] at ho
      rcases ho with rfl | rfl | rfl | rfl
      exacts [h1, h2, h3, h4])]
    rw [show (([dictGet? d "Booking Form Delivery_Formatted",
        dictGet? d "Ship Date_Formatted", dictGet? d "Booking Form Delivery",
        dictGet? d "Ship Date"].map (Option.map pyStr)) ++ [some ""]) =
      ([sGet d "Booking Form Delivery_Formatted", sGet d "Ship Date_Formatted",
        sGet d "Booking Form Delivery", sGet d "Ship Date"] ++ [some ""]) from rfl]
    rw [firstNonEmptyStr_append_empty]
  have hconf : confirmedDelivery d =
      vStr (firstNonEmptyStr [sGet d "Confirmed Delivery_Formatted",
        sGet d "Warehouse Date_Formatted", sGet d "Confirmed Delivery",
        sGet d "Warehouse Date",
        some (firstNonEmptyStr [sGet d "Booking Form Delivery_Formatted",
          sGet d "Ship Date_Formatted", sGet d "Booking Form Delivery",
          sGet d "Ship Date"])]) := by
    rw [confirmedDelivery_eq_chain, hbook]
    rw [orChainT_spec _ _ (by
      intro o ho
      simp only [List.mem_cons, List.not_mem_nil, or_false] at ho
      rcases ho with rfl | rfl | rfl | rfl
      exacts [h5, h6, h7, h8])]
    rfl
  have hrow1 : dictGet? (rowFor d i) "BOOKING FORM DELIVERY" = some (bookingDelivery d) := rfl
  have hrow2 : dictGet? (rowFor d i) "CONFIRMED DELIVERY" = some (confirmedDelivery d) := rfl
  rw [hrow1, hrow2, hbook, hconf]
  exact ⟨rfl, rfl⟩

/-- C1 witness: a surviving record whose only delivery field is
`Warehouse Date_Formatted = "2-Aug"` resolves CONFIRMED DELIVERY to
`"2-Aug"`. -/
theorem c1_delivery_fallback_chains_witness :
    dictGet? (rowFor recWarehouseOnly 1) "CONFIRMED DELIVERY" = some (vStr "2-Aug") := by
  have h := (c1_delivery_fallback_chains recWarehouseOnly 1 (by decide) (by decide)).2
  exact h.trans (by decide)

/-- C3 counterexample: `"2025-07-19 12:30:45"` has the claimed ISO shape yet
normalizes to `""` (only midnight texts take the ISO branch), and the
off-shape text with an apostrophe normalizes to a dash join instead of the
claimed `""`. -/
theorem c3_counterexample :
    specIsoShape "2025-07-19 12:30:45" = true ∧
    format_date (vStr "2025-07-19 12:30:45") = "" ∧
    specDMonShape ("don" ++ aposS ++ "t panic") = false ∧
    specIsoShape ("don" ++ aposS ++ "t panic") = false ∧
    format_date (vStr ("don" ++ aposS ++ "t panic")) = "don" ++ aposS ++ "t-panic" := by
  refine ⟨by decide, by decide, by decide, by decide, by decide⟩

/-- C3 amended: the normalizer is total; a `"D Mon 'YY"` shaped text yields
`"D-Mon"` (more generally, any apostrophe-bearing text with two tokens yields
the first two tokens joined with a dash); a text containing `"00:00:00"`
whose date part splits into dash-separated fields with parseable month and
day and in-range month yields `"D-Mon"` with no leading zero; a valid
datetime renders from its components; every remaining input yields `""`. -/
theorem c3_amended_normalizer_branches :
    (∀ s, specDMonShape s = true → ∃ dtok mtok ytok,
        splitWs s.toList = [dtok, mtok, ytok] ∧
        format_date (vStr s) = String.mk dtok ++ "-" ++ String.mk mtok) ∧
    (∀ (s : String) (p0 p1 : List Char) (rest : List (List Char)),
        pyContains aposS s = true → splitWs s.toList = p0 :: p1 :: rest →
        format_date (vStr s) = String.mk p0 ++ "-" ++ String.mk p1) ∧
    (∀ (s : String) (dpart : List Char) (rest : List (List Char)) (y m dd : List Char)
        (mi di : Int) (nm : String),
        pyContains aposS s = false → pyContains "00:00:00" s = true →
        splitWs s.toList = dpart :: rest → splitOnChar '-' dpart = [y, m, dd] →
        pyIntOfStr (String.mk m) = some mi → pyIntOfStr (String.mk dd) = some di →
        pyIndex monthNames (mi - 1) = some nm →
        format_date (vStr s) = intToStr di ++ "-" ++ nm) ∧
    (∀ (d m y : Nat) (nm : String), pyIndex monthNames ((m : Int) - 1) = some nm →
        format_date (vDate d m y) = intToStr (d : Int) ++ "-" ++ nm) ∧
    (∀ s : String, pyContains aposS s = false → pyContains "00:00:00" s = false →
        format_date (vStr s) = "") ∧
    (∀ n : Int, format_date (vInt n) = "") ∧
    (∀ (ip : Int) (fr : String), format_date (vFloat ip fr) = "") ∧
    format_date vNone = "" := by
  refine ⟨?_, fd_apos_branch, fd_iso_branch, fd_date_branch, fd_vstr_other,
    fun n => rfl, fun ip fr => rfl, rfl⟩
  intro s h
  unfold specDMonShape at h
  rcases hsp : splitWs s.toList with _ | ⟨dtok, _ | ⟨mtok, _ | ⟨ytok, _ | ⟨g4, gs⟩⟩⟩⟩
  · rw [hsp] at h
    simp at h
  · rw [hsp] at h
    simp at h
  · rw [hsp] at h
    simp at h
  · rw [hsp] at h
    rcases ytok with _ | ⟨a, y2⟩
    · simp at h
    · simp only [Bool.and_eq_true, beq_iff_eq] at h
      have ha : a = apos := by tauto
      have hy : (a :: y2) ∈ splitWs s.toList := by
        rw [hsp]
        simp
      have hamem : apos ∈ s.toList := mem_of_mem_splitWs hy (by simp [ha])
      have hA : pyContains aposS s = true := containsL_singleton_of_mem hamem
      exact ⟨dtok, mtok, a :: y2, rfl, fd_apos_branch s dtok mtok [a :: y2] hA hsp⟩
  · rw [hsp] at h
    simp at h

/-- C3 witness: both recognized shapes, a datetime, and the already-canonical
text, resolved through the branch theorems. -/
theorem c3_amended_normalizer_branches_witness :
    format_date (vStr ("19 Jul " ++ aposS ++ "25")) = "19-Jul" ∧
    format_date (vStr "2025-07-19 00:00:00") = "19-Jul" ∧
    format_date (vDate 2 8 2025) = "2-Aug" ∧
    format_date (vStr "19-Jul") = "" := by
  refine ⟨?_, ?_, ?_, ?_⟩
  · have h := c3_amended_normalizer_branches.2.1 ("19 Jul " ++ aposS ++ "25")
      ['1', '9'] ['J', 'u', 'l'] [[apos, '2', '5']] (by decide) (by decide)
    exact h.trans (by decide)
  · have h := c3_amended_normalizer_branches.2.2.1 "2025-07-19 00:00:00"
      ['2', '0', '2', '5', '-', '0', '7', '-', '1', '9']
      [['0', '0', ':', '0', '0', ':', '0', '0']]
      ['2', '0', '2', '5'] ['0', '7'] ['1', '9'] 7 19 "Jul"
      (by decide) (by decide) (by decide) (by decide) (by decide) (by decide) (by decide)
    exact h.trans (by decide)
  · have h := c3_amended_normalizer_branches.2.2.2.1 2 8 2025 "Aug" (by decide)
    exact h.trans (by decide)
  · exact c3_amended_normalizer_branches.2.2.2.2.1 "19-Jul" (by decide) (by decide)

/-- C4 counterexample: a located form whose record holds the non-sentinel
value `Reference = "ABC"` but no `Description` survives extraction yet yields
no output row, refuting the claimed iff. -/
theorem c4_counterexample :
    (extract_multi_lot_data gridRefOnly).1 =
      [[("Reference", vStr "ABC"), ("Form_Number", vInt 1)]] ∧
    inNAList (vStr "ABC") = false ∧
    pipeline gridRefOnly = [] := by
  refine ⟨by decide, by decide, by decide⟩

/-- C4 amended: a located form survives extraction iff some captured value is
not a missing sentinel; but it is accepted into the output only if its
Description is additionally present and non-sentinel — for aggregated records
(which always carry a nonzero `Form_Number`) the projector's skip test
reduces to the Description sentinel test alone. -/
theorem c4_amended_acceptance :
    (∀ (g : Grid) (r c : Nat), (extract_single_form_data g r c).1 ≠ none ↔
        ∃ p ∈ addFormatted (extractBase g r c), inNAList p.2 = false) ∧
    (∀ (d : Record) (m : Int), m ≠ 0 → dictGet? d "Form_Number" = some (vInt m) →
        skipRow d = inNAList (getD d "Description" (vStr ""))) := by
  constructor
  · intro g r c
    constructor
    · intro h
      by_cases hc : ((addFormatted (extractBase g r c)).isEmpty ||
          (addFormatted (extractBase g r c)).all (fun p => inNAList p.2)) = true
      · exfalso
        apply h
        simp [extract_single_form_data, hc]
      · have hc' : ¬ ((addFormatted (extractBase g r c)).all
            (fun p => inNAList p.2) = true) := by
          intro hall
          exact hc (by simp [hall])
        by_contra hno
        push_neg at hno
        apply hc'
        rw [List.all_eq_true]
        intro p hp
        cases hval : inNAList p.2 with
        | true => rfl
        | false => exact absurd hval (hno p hp)
    · rintro ⟨p, hp, hfalse⟩
      intro hnone
      by_cases hc : ((addFormatted (extractBase g r c)).isEmpty ||
          (addFormatted (extractBase g r c)).all (fun p => inNAList p.2)) = true
      · rw [Bool.or_eq_true] at hc
        rcases hc with hc | hc
        · rw [List.isEmpty_iff] at hc
          rw [hc] at hp
          simp at hp
        · have := List.all_eq_true.mp hc p hp
          rw [hfalse] at this
          exact absurd this (by decide)
      · have hsome : (extract_single_form_data g r c).1 =
            some (addFormatted (extractBase g r c)) := by
          simp [extract_single_form_data, hc]
        rw [hsome] at hnone
        simp at hnone
  · intro d m hm hk
    have hmem : ("Form_Number", vInt m) ∈ d := dictGet?_mem hk
    have hne : d.isEmpty = false := by
      cases d with
      | nil => simp at hmem
      | cons a t => rfl
    have hall : ((d.filter (fun p => truthy p.2)).all (fun p => inNAList p.2)) = false := by
      cases hb : ((d.filter (fun p => truthy p.2)).all (fun p => inNAList p.2)) with
      | false => rfl
      | true =>
          exfalso
          have hmf : ("Form_Number", vInt m) ∈ d.filter (fun p => truthy p.2) := by
            rw [List.mem_filter]
            exact ⟨hmem, by simp [truthy, hm]⟩
          have := List.all_eq_true.mp hb _ hmf
          simp [inNAList] at this
    unfold skipRow
    rw [hne, hall]
    simp

/-- C4 witness: the Reference-only form, accepted by extraction. -/
theorem c4_amended_acceptance_witness :
    (extract_single_form_data gridRefOnly 0 0).1 ≠ none ∧
    skipRow [("Reference", vStr "ABC"), ("Form_Number", vInt 1)] =
      inNAList (getD [("Reference", vStr "ABC"), ("Form_Number", vInt 1)]
        "Description" (vStr "")) := by
  constructor
  · exact (c4_amended_acceptance.1 gridRefOnly 0 0).mpr
      ⟨("Reference", vStr "ABC"), by decide, by decide⟩
  · exact c4_amended_acceptance.2 [("Reference", vStr "ABC"), ("Form_Number", vInt 1)] 1
      (by decide) (by decide)

/-- C5 counterexample: with the first anchor's form dropped, the surviving
form carries `Form_Number = 2` yet its output row reports `FORM_NO = 1` (only
REMARKS reports the discovery number). -/
theorem c5_counterexample :
    (extract_multi_lot_data gridTwoForms).1 =
      [[("Description", vStr "X"), ("Form_Number", vInt 2)]] ∧
    pipeline gridTwoForms =
      [rowFor [("Description", vStr "X"), ("Form_Number", vInt 2)] 1] ∧
    dictGet? (rowFor [("Description", vStr "X"), ("Form_Number", vInt 2)] 1) "FORM_NO" =
      some (vInt 1) ∧
    dictGet? (rowFor [("Description", vStr "X"), ("Form_Number", vInt 2)] 1) "REMARKS" =
      some (vStr "Form 2") := by
  refine ⟨by decide, by decide, by decide, by decide⟩

/-- C5 amended: each surviving record's `Form_Number` is the 1-based discovery
index of its anchor among all located anchors (dropped forms included), but
the `FORM_NO` column is the 1-based position in the surviving list handed to
the projector; REMARKS, not FORM_NO, reports the discovery number. -/
theorem c5_amended_numbering :
    (∀ (g : Grid) (d : Record), d ∈ (extract_multi_lot_data g).1 →
        ∃ (i : Nat) (rc : Nat × Nat) (bd : Record),
          (anchorsOf g)[i]? = some rc ∧
          (extract_single_form_data g rc.1 rc.2).1 = some bd ∧
          d = dictSet bd "Form_Number" (vInt ((i : Int) + 1)) ∧
          dictGet? d "Form_Number" = some (vInt ((i : Int) + 1))) ∧
    (∀ l : List Record, create_order_details_output_multi_form l =
        l.enum.filterMap (fun p => if skipRow p.2 then none else some (rowFor p.2 (p.1 + 1)))) ∧
    (∀ (d : Record) (i : Nat), dictGet? (rowFor d i) "FORM_NO" = some (vInt (i : Int))) ∧
    (∀ (d : Record) (i : Nat), dictGet? (rowFor d i) "REMARKS" =
        some (vStr ("Form " ++ pyStr (getD d "Form_Number" (vInt (i : Int)))))) := by
  refine ⟨?_, fun l => rfl, fun d i => rfl, fun d i => rfl⟩
  intro g d hd
  have hd' : d ∈ (anchorsOf g).enum.filterMap (formNumbered g) := by
    rw [extract_multi_lot_data_eq] at hd
    exact hd
  obtain ⟨ia, hia, hf⟩ := List.mem_filterMap.mp hd'
  obtain ⟨i, rc⟩ := ia
  unfold formNumbered at hf
  cases hx : (extract_single_form_data g rc.1 rc.2).1 with
  | none =>
      rw [hx] at hf
      simp at hf
  | some bd =>
      rw [hx] at hf
      simp at hf
      refine ⟨i, rc, bd, List.mk_mem_enum_iff_getElem?.mp hia, hx, hf.symm, ?_⟩
      rw [← hf]
      exact dictGet?_dictSet_self bd "Form_Number" (vInt ((i : Int) + 1))

/-- C5 witness: the surviving form of the two-anchor sheet is anchor number 2. -/
theorem c5_amended_numbering_witness :
    ∃ (i : Nat) (rc : Nat × Nat) (bd : Record),
      (anchorsOf gridTwoForms)[i]? = some rc ∧
      (extract_single_form_data gridTwoForms rc.1 rc.2).1 = some bd ∧
      [("Description", vStr "X"), ("Form_Number", vInt 2)] =
        dictSet bd "Form_Number" (vInt ((i : Int) + 1)) ∧
      dictGet? [("Description", vStr "X"), ("Form_Number", vInt 2)] "Form_Number" =
        some (vInt ((i : Int) + 1)) :=
  c5_amended_numbering.1 gridTwoForms [("Description", vStr "X"), ("Form_Number", vInt 2)]
    (by decide)

/-- C7 counterexample: the float `5.0` is extracted as the text `"5.0"`, which
does contain a decimal point, contradicting the claimed integer rendering. -/
theorem c7_counterexample :
    pyStr (vFloat 5 "0") = "5.0" ∧
    ((pyStr (vFloat 5 "0")).toList.contains '.') = true ∧
    extractBase gridFloatUnits 0 0 = [("Total Units", vStr "5.0")] := by
  refine ⟨by decide, by decide, by decide⟩

/-- C7 amended: extraction renders values with Python `str`: an int renders
with no decimal point, while a float (integral magnitude included) renders as
integer part, point, fraction digits; every probed value is the stripped
`str` rendering of an adjacent cell. -/
theorem c7_amended_numeric_rendering :
    (∀ n : Int, ((pyStr (vInt n)).toList.contains '.') = false) ∧
    (∀ (ip : Int) (fr : String), pyStr (vFloat ip fr) = intToStr ip ++ "." ++ fr) ∧
    (∀ (g : Grid) (row col : Nat) (s : String), probeValue g row col = some s →
        ∃ off ∈ ([1, 2, 3] : List Nat), s = pyStrip (pyStr (g.cell row (col + off)))) := by
  refine ⟨?_, fun ip fr => rfl, ?_⟩
  · intro n
    cases hc : (pyStr (vInt n)).toList.contains '.' with
    | false => rfl
    | true =>
        exfalso
        have hm : '.' ∈ (pyStr (vInt n)).toList := List.mem_of_elem_eq_true hc
        unfold pyStr intToStr at hm
        dsimp only at hm
        by_cases hn : n < 0
        · rw [if_pos hn] at hm
          have hm' : '.' ∈ '-' :: natToChars n.natAbs := hm
          rcases List.mem_cons.mp hm' with h | h
          · exact absurd h (by decide)
          · have := natToChars_digits n.natAbs '.' h
            exact absurd this (by decide)
        · rw [if_neg hn] at hm
          have hm' : '.' ∈ natToChars n.toNat := hm
          have := natToChars_digits n.toNat '.' hm'
          exact absurd this (by decide)
  · intro g row col s h
    obtain ⟨off, hoff, _, _, hs⟩ := probeValue_sound h
    exact ⟨off, hoff, hs⟩

/-- C7 witness: the float-units sheet, probed and rendered. -/
theorem c7_amended_numeric_rendering_witness :
    (∃ off ∈ ([1, 2, 3] : List Nat),
        "5.0" = pyStrip (pyStr (gridFloatUnits.cell 0 (0 + off)))) ∧
    ((pyStr (vInt 5)).toList.contains '.') = false :=
  ⟨c7_amended_numeric_rendering.2.2 gridFloatUnits 0 0 "5.0" (by decide),
   c7_amended_numeric_rendering.1 5⟩
